import Mathlib

/-!
Verification of the baby-names dataset core (names_model.py, names_operations.py,
names.py) against its natural-language specification.  Counts are modelled as
rationals (exact arithmetic standing in for Python floats on the decimal data
involved), Python `dict` as an insertion-ordered association list in which
overwriting a key keeps its position, and Python's stable `sorted` as insertion
sort with a Boolean comparator.
-/

namespace Names

/-- Mirrors `YearlyCount` in names_model.py: a single year's count for a name. -/
structure YearlyCount where
  year : Int
  count : Rat
deriving DecidableEq, Repr

/-- Mirrors `NameData` in names_model.py: all data for a single name. -/
structure NameData where
  name : String
  boys_total : Rat
  girls_total : Rat
  boys_yearly : Option (List YearlyCount) := none
  girls_yearly : Option (List YearlyCount) := none
deriving DecidableEq, Repr

/-- Mirrors the `NameData.total_count` property. -/
def NameData.total_count (nd : NameData) : Rat :=
  nd.boys_total + nd.girls_total

/-- Mirrors the `NameData.gender_score` property. -/
def NameData.gender_score (nd : NameData) : Rat :=
  if nd.total_count = 0 then 0
  else (nd.girls_total - nd.boys_total) / nd.total_count

/-- Mirrors the `NameData.has_yearly_data` property
(`boys_yearly is not None or girls_yearly is not None`). -/
def NameData.has_yearly_data (nd : NameData) : Bool :=
  nd.boys_yearly.isSome || nd.girls_yearly.isSome

/-- Mirrors `Ranks` in names_model.py. -/
structure Ranks where
  overall : Nat
  boys : Nat
  girls : Nat
deriving DecidableEq, Repr

/-! ### Python dict model

A Python `dict` is an insertion-ordered association list: assigning to an
existing key replaces its value in place, assigning to a fresh key appends. -/

/-- Assignment `d[k] = v` on a Python dict. -/
def dictInsert {κ β : Type} [DecidableEq κ] (k : κ) (v : β) :
    List (κ × β) → List (κ × β)
  | [] => [(k, v)]
  | p :: rest => if p.1 = k then (k, v) :: rest else p :: dictInsert k v rest

/-- Lookup `d.get(k)` on a Python dict. -/
def pyGet {κ β : Type} [DecidableEq κ] (d : List (κ × β)) (k : κ) : Option β :=
  (d.find? (fun p => decide (p.1 = k))).map (·.2)

/-- `dict(pairs)`: sequential assignment of the pairs into an empty dict. -/
def dictOfList {κ β : Type} [DecidableEq κ] (ps : List (κ × β)) : List (κ × β) :=
  ps.foldl (fun d p => dictInsert p.1 p.2 d) []

/-- Specification-side lookup into a raw pair list: the value of the last pair
carrying the key (what a dict built from the pairs returns), `none` if the key
never occurs. -/
def lastGet {κ β : Type} [DecidableEq κ] (ps : List (κ × β)) (k : κ) : Option β :=
  (ps.reverse.find? (fun p => decide (p.1 = k))).map (·.2)

/-! ### Python stable sort model

Python's `sorted` (also with `reverse=True`) is a stable sort; it is modelled
as insertion sort over a Boolean comparator. -/

/-- Insert into a sorted list, after every element it does not strictly precede. -/
def insertB {α : Type} (le : α → α → Bool) (a : α) : List α → List α
  | [] => [a]
  | b :: l => if le a b then a :: b :: l else b :: insertB le a l

/-- Stable insertion sort with comparator `le`. -/
def sortB {α : Type} (le : α → α → Bool) : List α → List α
  | [] => []
  | a :: l => insertB le a (sortB le l)

/-- Models Python `str.lower()` (and Lean's `String.toLower`): character-wise
lowercasing. -/
def strLower (s : String) : String :=
  ⟨s.data.map Char.toLower⟩

/-- Lexicographic comparison of code-point lists: how Python compares strings. -/
def lexLe : List Nat → List Nat → Bool
  | [], _ => true
  | _ :: _, [] => false
  | a :: as, b :: bs => if a < b then true else if b < a then false else lexLe as bs

/-- Python string comparison `a <= b`: lexicographic on code points. -/
def strLe (a b : String) : Bool :=
  lexLe (a.data.map Char.toNat) (b.data.map Char.toNat)

/-- Mirrors `NamesDataset`: the `_names` dict, the `_yearly_loaded` flag and
the `_ranks_cache`. -/
structure Dataset where
  names : List (String × NameData) := []
  yearlyLoaded : Bool := false
  ranksCache : Option (List (String × Ranks)) := none
deriving DecidableEq, Repr

/-- `self._names.values()`. -/
def Dataset.values (ds : Dataset) : List NameData :=
  ds.names.map (·.2)

/-- The sorted union of the key sets of the two totals dicts
(`sorted(set(boys_dict.keys()) | set(girls_dict.keys()))`). -/
def sortedUnionKeys (boys_dict girls_dict : List (String × Rat)) : List String :=
  sortB strLe ((boys_dict.map (·.1) ++ girls_dict.map (·.1)).dedup)

/-- Mirrors `NamesDataset.load`, starting from the aggregated per-source rows
(the `(name, total_count)` rows of `_load_aggregated`, which `load` zips into
`boys_dict` / `girls_dict`). -/
def load (boysRows girlsRows : List (String × Rat)) : Dataset :=
  let boys_dict := dictOfList boysRows
  let girls_dict := dictOfList girlsRows
  let all_names := sortedUnionKeys boys_dict girls_dict
  { names := all_names.foldl (fun d n =>
      dictInsert (strLower n)
        { name := n
          boys_total := (pyGet boys_dict n).getD 0
          girls_total := (pyGet girls_dict n).getD 0 } d) []
    yearlyLoaded := false
    ranksCache := none }

/-- The entity `load` constructs for original-cased name `n`: totals looked up
by exact name in each source dict, defaulting to 0. -/
def loadEntity (boysRows girlsRows : List (String × Rat)) (n : String) :
    NameData :=
  { name := n
    boys_total := (pyGet (dictOfList boysRows) n).getD 0
    girls_total := (pyGet (dictOfList girlsRows) n).getD 0 }

/-! ### Yearly data loading -/

/-- A long-form yearly row `(name_lower, year, count)` as produced by
`_load_yearly_raw`. -/
def YearlyRow : Type := String × Int × Rat

instance : DecidableEq YearlyRow := by
  unfold YearlyRow; infer_instance

/-- The initial run of rows keyed by `s`: the run's yearly counts and the
remaining rows.  Helper mirroring the grouping loop of `_build_yearly_dict`. -/
def takeRun (s : String) : List YearlyRow → List YearlyCount × List YearlyRow
  | [] => ([], [])
  | r :: rest =>
    if r.1 = s then
      let p := takeRun s rest
      (⟨r.2.1, r.2.2⟩ :: p.1, p.2)
    else ([], r :: rest)

theorem takeRun_length_le (s : String) :
    ∀ rows : List YearlyRow, (takeRun s rows).2.length ≤ rows.length := by
  intro rows
  induction rows with
  | nil => simp [takeRun]
  | cons r rest ih =>
    by_cases h : r.1 = s
    · simp only [takeRun, if_pos h]
      exact Nat.le_succ_of_le ih
    · simp [takeRun, if_neg h]

/-- The grouping loop of `_build_yearly_dict`: consecutive rows with equal
`name_lower` become one run; each completed run is assigned into the dict. -/
def buildYearlyAux (acc : List (String × List YearlyCount)) :
    List YearlyRow → List (String × List YearlyCount)
  | [] => acc
  | r :: rest =>
    let p := takeRun r.1 rest
    buildYearlyAux (dictInsert r.1 (⟨r.2.1, r.2.2⟩ :: p.1) acc) p.2
termination_by rows => rows.length
decreasing_by
  exact Nat.lt_succ_of_le (takeRun_length_le _ _)

/-- Mirrors `NamesDataset._build_yearly_dict`. -/
def build_yearly_dict (rows : List YearlyRow) : List (String × List YearlyCount) :=
  buildYearlyAux [] rows

/-- Mirrors `NamesDataset.load_yearly_data`, starting from the long-form rows
of `_load_yearly_raw`: early-returns when `_yearly_loaded`, otherwise sorts
both row sets by `name_lower`, groups them into per-name yearly dicts, and
populates `boys_yearly` / `girls_yearly` of the matching entities. -/
def load_yearly_data (ds : Dataset) (boysRows girlsRows : List YearlyRow) :
    Dataset :=
  if ds.yearlyLoaded then ds
  else
    let bd := build_yearly_dict (sortB (fun a b => strLe a.1 b.1) boysRows)
    let gd := build_yearly_dict (sortB (fun a b => strLe a.1 b.1) girlsRows)
    { ds with
      yearlyLoaded := true
      names := ds.names.map (fun p =>
        (p.1, { p.2 with
          boys_yearly := match pyGet bd p.1 with
            | some l => some l
            | none => p.2.boys_yearly
          girls_yearly := match pyGet gd p.1 with
            | some l => some l
            | none => p.2.girls_yearly })) }

/-! ### Ranking -/

/-- The dict comprehension `{name.name: rank + 1 for rank, name in enumerate(l)}`. -/
def rankDict (l : List NameData) : List (String × Nat) :=
  dictOfList (l.enum.map (fun p => (p.2.name, p.1 + 1)))

/-- Mirrors `NamesDataset._compute_ranks`: three independent stable descending
sorts, each yielding a 1-based rank dict, combined into the `Ranks` cache. -/
def buildCache (entities : List NameData) : List (String × Ranks) :=
  let overall_ranks :=
    rankDict (sortB (fun a b => decide (b.total_count ≤ a.total_count)) entities)
  let boys_ranks :=
    rankDict (sortB (fun a b => decide (b.boys_total ≤ a.boys_total)) entities)
  let girls_ranks :=
    rankDict (sortB (fun a b => decide (b.girls_total ≤ a.girls_total)) entities)
  entities.foldl (fun c nd =>
    dictInsert nd.name
      { overall := (pyGet overall_ranks nd.name).getD 0
        boys := (pyGet boys_ranks nd.name).getD 0
        girls := (pyGet girls_ranks nd.name).getD 0 } c) []

/-- The `Ranks` record `_compute_ranks` builds for one entity: its position
(1-based) in each of the three descending stable sorts, looked up by display
name. -/
def cacheEntry (entities : List NameData) (nd : NameData) : Ranks :=
  { overall := (pyGet (rankDict (sortB
      (fun a b => decide (b.total_count ≤ a.total_count)) entities))
      nd.name).getD 0
    boys := (pyGet (rankDict (sortB
      (fun a b => decide (b.boys_total ≤ a.boys_total)) entities))
      nd.name).getD 0
    girls := (pyGet (rankDict (sortB
      (fun a b => decide (b.girls_total ≤ a.girls_total)) entities))
      nd.name).getD 0 }

/-- `self._compute_ranks()`: fills the cache from the current entities. -/
def compute_ranks (ds : Dataset) : Dataset :=
  { ds with ranksCache := some (buildCache ds.values) }

/-- All-or-nothing map: models a Python comprehension whose body may raise
(`KeyError` on a missing dict key). -/
def mapOrFail {α β : Type} (f : α → Option β) : List α → Option (List β)
  | [] => some []
  | x :: xs =>
    match f x, mapOrFail f xs with
    | some y, some ys => some (y :: ys)
    | _, _ => none

/-- Mirrors `NamesDataset.get_ranked_names`: computes the cache if absent,
sorts the entities by `total_count` descending, truncates to `top_n` when
`top_n > 0`, and pairs each entity with `self._ranks_cache[name.name]`. -/
def get_ranked_names (ds : Dataset) (top_n : Int) :
    Option (List (NameData × Ranks)) :=
  let cache := match ds.ranksCache with
    | none => buildCache ds.values
    | some c => c
  let all_names := sortB (fun a b => decide (b.total_count ≤ a.total_count)) ds.values
  let cut := if top_n > 0 then all_names.take top_n.toNat else all_names
  mapOrFail (fun nd => (pyGet cache nd.name).map (fun r => (nd, r))) cut

/-! ### Pure operations (names_operations.py) -/

/-- The `gender` argument of `get_time_series`. -/
inductive Gender where
  | boys
  | girls
  | combined
deriving DecidableEq, Repr

/-- The dict comprehension `{yc.year: yc.count for yc in l}`. -/
def yearDict (l : List YearlyCount) : List (Int × Rat) :=
  dictOfList (l.map (fun yc => (yc.year, yc.count)))

/-- `d.get(y, 0)` on a year dict. -/
def dgetD (d : List (Int × Rat)) (y : Int) : Rat :=
  (pyGet d y).getD 0

/-- Specification-side view: the years carried by a yearly sequence. -/
def yearsOf (l : List YearlyCount) : List Int :=
  l.map (·.year)

/-- Specification-side view: a yearly sequence's count for year `y` (the last
entry for `y` when several exist, matching dict construction), 0 when the year
has no entry. -/
def lastVal (l : List YearlyCount) (y : Int) : Rat :=
  ((l.reverse.find? (fun yc => decide (yc.year = y))).map (·.count)).getD 0

/-- Mirrors `get_time_series` in names_operations.py. -/
def get_time_series (nd : NameData) (gender : Gender) : List (Int × Rat) :=
  if ¬ nd.has_yearly_data then []
  else
    match gender with
    | .boys => (nd.boys_yearly.getD []).map (fun yc => (yc.year, yc.count))
    | .girls => (nd.girls_yearly.getD []).map (fun yc => (yc.year, yc.count))
    | .combined =>
      let bd := yearDict (nd.boys_yearly.getD [])
      let gd := yearDict (nd.girls_yearly.getD [])
      let all_years :=
        sortB (fun a b => decide (a ≤ b)) ((bd.map (·.1) ++ gd.map (·.1)).dedup)
      all_years.map (fun y => (y, dgetD bd y + dgetD gd y))

/-- Python truthiness of `boys_yearly` / `girls_yearly` (`None` and the empty
list are both falsy). -/
def optListTruthy : Option (List YearlyCount) → Bool
  | none => false
  | some l => !l.isEmpty

/-- Mirrors `calculate_yearly_gender_scores` in names_operations.py. -/
def calculate_yearly_gender_scores (nd : NameData) : List (Int × Rat) :=
  if !optListTruthy nd.boys_yearly || !optListTruthy nd.girls_yearly then []
  else
    let bd := yearDict (nd.boys_yearly.getD [])
    let gd := yearDict (nd.girls_yearly.getD [])
    let all_years :=
      sortB (fun a b => decide (a ≤ b)) ((bd.map (·.1) ++ gd.map (·.1)).dedup)
    all_years.filterMap (fun y =>
      let b := dgetD bd y
      let g := dgetD gd y
      let total := b + g
      if 0 < total then some (y, (g - b) / total) else none)

/-- The distance `abs(name.gender_score - target)` used by
`find_closest_to_score`. -/
def scoreDist (nd : NameData) (target : Rat) : Rat :=
  |nd.gender_score - target|

/-- Mirrors `find_closest_to_score` in names_operations.py. -/
def find_closest_to_score (names : List NameData) (target : Rat) (n : Nat) :
    List NameData :=
  let scored := names.map (fun nd => (nd, |nd.gender_score - target|))
  let sorted := sortB (fun x y => decide (x.2 ≤ y.2)) scored
  (sorted.take n).map (·.1)

/-- Mirrors the `nearest` command in names.py: validates `target` before
touching the dataset, then runs `get_ranked_names` and `find_closest_to_score`. -/
def nearest (ds : Dataset) (target : Rat) (n : Nat) (top : Int) :
    Except String (List NameData) :=
  if ¬ (-1 ≤ target ∧ target ≤ 1) then
    .error "Error: target must be between -1.0 and 1.0"
  else
    match get_ranked_names ds top with
    | none => .error "KeyError"
    | some ranked => .ok (find_closest_to_score (ranked.map (·.1)) target n)

end Names

namespace Names

/-! ### Helper lemmas about the stable sort model -/

theorem insertB_perm {α : Type} (le : α → α → Bool) (a : α) (l : List α) :
    List.Perm (insertB le a l) (a :: l) := by
  induction l with
  | nil => exact List.Perm.refl _
  | cons b t ih =>
    by_cases h : le a b
    · simp [insertB, h]
    · rw [insertB, if_neg h]
      exact (ih.cons b).trans (List.Perm.swap a b t)

theorem sortB_perm {α : Type} (le : α → α → Bool) (l : List α) :
    List.Perm (sortB le l) l := by
  induction l with
  | nil => exact List.Perm.refl _
  | cons a t ih => exact (insertB_perm le a (sortB le t)).trans (ih.cons a)

theorem mem_sortB {α : Type} (le : α → α → Bool) (l : List α) (x : α) :
    x ∈ sortB le l ↔ x ∈ l :=
  (sortB_perm le l).mem_iff

theorem pairwise_insertB {α : Type} (le : α → α → Bool)
    (htot : ∀ a b, le a b = true ∨ le b a = true)
    (htrans : ∀ a b c, le a b = true → le b c = true → le a c = true)
    (a : α) (l : List α) (hl : l.Pairwise (fun x y => le x y = true)) :
    (insertB le a l).Pairwise (fun x y => le x y = true) := by
  induction l with
  | nil => simp [insertB]
  | cons b t ih =>
    rcases List.pairwise_cons.mp hl with ⟨hb, ht⟩
    by_cases h : le a b
    · rw [insertB, if_pos h]
      refine List.Pairwise.cons ?_ hl
      intro y hy
      rcases List.mem_cons.mp hy with rfl | hyt
      · exact h
      · exact htrans a b y h (hb y hyt)
    · rw [insertB, if_neg h]
      have hba : le b a = true := (htot a b).resolve_left (by simpa using h)
      refine List.Pairwise.cons ?_ (ih ht)
      intro y hy
      rcases List.mem_cons.mp ((insertB_perm le a t).mem_iff.mp hy) with rfl | hyt
      · exact hba
      · exact hb y hyt

theorem pairwise_sortB {α : Type} (le : α → α → Bool)
    (htot : ∀ a b, le a b = true ∨ le b a = true)
    (htrans : ∀ a b c, le a b = true → le b c = true → le a c = true)
    (l : List α) :
    (sortB le l).Pairwise (fun x y => le x y = true) := by
  induction l with
  | nil => simp [sortB]
  | cons a t ih => exact pairwise_insertB le htot htrans a (sortB le t) ih

theorem pairwise_insertB_lex {α : Type} (le : α → α → Bool)
    (htot : ∀ a b, le a b = true ∨ le b a = true)
    (htrans : ∀ a b c, le a b = true → le b c = true → le a c = true)
    (idx : α → Nat) (a : α) (l : List α)
    (ha : ∀ b ∈ l, idx a < idx b)
    (hl : l.Pairwise (fun x y => le x y = true ∧ (le y x = true → idx x < idx y))) :
    (insertB le a l).Pairwise
      (fun x y => le x y = true ∧ (le y x = true → idx x < idx y)) := by
  induction l with
  | nil => simp [insertB]
  | cons b t ih =>
    rcases List.pairwise_cons.mp hl with ⟨hb, ht⟩
    by_cases h : le a b
    · rw [insertB, if_pos h]
      refine List.Pairwise.cons ?_ hl
      intro y hy
      rcases List.mem_cons.mp hy with rfl | hyt
      · exact ⟨h, fun _ => ha y (List.mem_cons_self _ _)⟩
      · exact ⟨htrans a b y h (hb y hyt).1,
          fun _ => ha y (List.mem_cons_of_mem b hyt)⟩
    · rw [insertB, if_neg h]
      have hba : le b a = true := (htot a b).resolve_left (by simpa using h)
      refine List.Pairwise.cons ?_
        (ih (fun c hc => ha c (List.mem_cons_of_mem b hc)) ht)
      intro y hy
      rcases List.mem_cons.mp ((insertB_perm le a t).mem_iff.mp hy) with rfl | hyt
      · exact ⟨hba, fun hab => absurd hab (by simpa using h)⟩
      · exact hb y hyt

theorem pairwise_sortB_lex {α : Type} (le : α → α → Bool)
    (htot : ∀ a b, le a b = true ∨ le b a = true)
    (htrans : ∀ a b c, le a b = true → le b c = true → le a c = true)
    (idx : α → Nat) (l : List α)
    (hl : l.Pairwise (fun x y => idx x < idx y)) :
    (sortB le l).Pairwise
      (fun x y => le x y = true ∧ (le y x = true → idx x < idx y)) := by
  induction l with
  | nil => simp [sortB]
  | cons a t ih =>
    rcases List.pairwise_cons.mp hl with ⟨ha, ht⟩
    exact pairwise_insertB_lex le htot htrans idx a (sortB le t)
      (fun b hb => ha b ((sortB_perm le t).mem_iff.mp hb)) (ih ht)

theorem map_insertB {α β : Type} (le : α → α → Bool) (le' : β → β → Bool)
    (g : α → β) (hg : ∀ a b, le' (g a) (g b) = le a b) (a : α) (l : List α) :
    (insertB le a l).map g = insertB le' (g a) (l.map g) := by
  induction l with
  | nil => simp [insertB]
  | cons b t ih =>
    by_cases h : le a b
    · simp [insertB, h, hg]
    · simp only [List.map_cons, insertB, hg, if_neg h, List.map, ih]

theorem map_sortB {α β : Type} (le : α → α → Bool) (le' : β → β → Bool)
    (g : α → β) (hg : ∀ a b, le' (g a) (g b) = le a b) (l : List α) :
    (sortB le l).map g = sortB le' (l.map g) := by
  induction l with
  | nil => simp [sortB]
  | cons a t ih =>
    simp only [sortB, List.map_cons]
    rw [map_insertB le le' g hg, ih]

/-! ### Helper lemmas about the dict model -/

theorem pyGet_cons {κ β : Type} [DecidableEq κ] (p : κ × β) (d : List (κ × β))
    (m : κ) :
    pyGet (p :: d) m = if p.1 = m then some p.2 else pyGet d m := by
  by_cases h : p.1 = m
  · simp [pyGet, List.find?, h]
  · simp [pyGet, List.find?, h]

theorem pyGet_dictInsert {κ β : Type} [DecidableEq κ] (k m : κ) (v : β)
    (d : List (κ × β)) :
    pyGet (dictInsert k v d) m = if k = m then some v else pyGet d m := by
  induction d with
  | nil =>
    rw [dictInsert, pyGet_cons]
  | cons p rest ih =>
    rw [dictInsert]
    by_cases hp : p.1 = k
    · rw [if_pos hp, pyGet_cons, pyGet_cons]
      by_cases h : k = m
      · simp [h]
      · have hpm : ¬ p.1 = m := by rw [hp]; exact h
        simp [h, hpm]
    · rw [if_neg hp, pyGet_cons, pyGet_cons, ih]
      by_cases hm : p.1 = m
      · have hk : ¬ k = m := by
          intro e
          exact hp (hm.trans e.symm)
        simp [hm, hk]
      · simp [hm]

theorem mem_keys_dictInsert {κ β : Type} [DecidableEq κ] (k m : κ) (v : β)
    (d : List (κ × β)) :
    m ∈ (dictInsert k v d).map (·.1) ↔ m = k ∨ m ∈ d.map (·.1) := by
  induction d with
  | nil => simp [dictInsert]
  | cons p rest ih =>
    by_cases hp : p.1 = k
    · rw [dictInsert, if_pos hp]
      simp [hp]
    · rw [dictInsert, if_neg hp]
      simp only [List.map_cons, List.mem_cons, ih]
      tauto

theorem dictInsert_of_not_mem {κ β : Type} [DecidableEq κ] (k : κ) (v : β)
    (d : List (κ × β)) (h : k ∉ d.map (·.1)) :
    dictInsert k v d = d ++ [(k, v)] := by
  induction d with
  | nil => rfl
  | cons p rest ih =>
    have hp : ¬ p.1 = k := by
      intro e
      exact h (by simp [e])
    rw [dictInsert, if_neg hp, ih (fun hm => h (by simp [hm]))]
    rfl

theorem foldl_dictInsert_nodup {κ β : Type} [DecidableEq κ]
    (ps : List (κ × β)) :
    ∀ acc : List (κ × β), (acc.map (·.1) ++ ps.map (·.1)).Nodup →
      ps.foldl (fun d p => dictInsert p.1 p.2 d) acc = acc ++ ps := by
  induction ps with
  | nil => intro acc _; simp
  | cons p rest ih =>
    intro acc h
    rw [List.foldl_cons]
    have hk : p.1 ∉ acc.map (·.1) := by
      intro hm
      exact (List.disjoint_of_nodup_append h) hm (by simp)
    rw [dictInsert_of_not_mem p.1 p.2 acc hk]
    have h' : ((acc ++ [p]).map (·.1) ++ rest.map (·.1)).Nodup := by
      simp only [List.map_append, List.append_assoc, List.map_cons, List.map_nil]
      simpa using h
    rw [ih (acc ++ [p]) h']
    simp

theorem dictOfList_eq_self {κ β : Type} [DecidableEq κ] (ps : List (κ × β))
    (h : (ps.map (·.1)).Nodup) : dictOfList ps = ps := by
  have := foldl_dictInsert_nodup ps [] (by simpa using h)
  simpa [dictOfList] using this

theorem pyGet_foldl_lastGet {κ β : Type} [DecidableEq κ] (ps : List (κ × β)) :
    ∀ (acc : List (κ × β)) (k : κ),
      pyGet (ps.foldl (fun d p => dictInsert p.1 p.2 d) acc) k =
        match lastGet ps k with
        | some v => some v
        | none => pyGet acc k := by
  induction ps with
  | nil => intro acc k; simp [lastGet]
  | cons p rest ih =>
    intro acc k
    have hcons : lastGet (p :: rest) k =
        match lastGet rest k with
        | some v => some v
        | none => if p.1 = k then some p.2 else none := by
      unfold lastGet
      rw [List.reverse_cons, List.find?_append]
      cases hf : rest.reverse.find? (fun q => decide (q.1 = k)) with
      | some q => simp [Option.orElse]
      | none =>
        by_cases h : p.1 = k <;> simp [Option.orElse, List.find?, h]
    rw [List.foldl_cons, ih, hcons, pyGet_dictInsert]
    cases lastGet rest k with
    | some v => rfl
    | none => by_cases h : p.1 = k <;> simp [h]

theorem pyGet_dictOfList {κ β : Type} [DecidableEq κ] (ps : List (κ × β))
    (k : κ) : pyGet (dictOfList ps) k = lastGet ps k := by
  have h := pyGet_foldl_lastGet ps [] k
  rw [dictOfList, h]
  cases lastGet ps k with
  | some v => rfl
  | none => simp [pyGet]

theorem mem_keys_foldl_dictInsert {κ β : Type} [DecidableEq κ]
    (ps : List (κ × β)) :
    ∀ (acc : List (κ × β)) (m : κ),
      (m ∈ (ps.foldl (fun d p => dictInsert p.1 p.2 d) acc).map (·.1) ↔
        m ∈ acc.map (·.1) ∨ m ∈ ps.map (·.1)) := by
  induction ps with
  | nil => intro acc m; simp
  | cons p rest ih =>
    intro acc m
    rw [List.foldl_cons, ih]
    rw [mem_keys_dictInsert]
    simp only [List.map_cons, List.mem_cons]
    tauto

theorem mem_keys_dictOfList {κ β : Type} [DecidableEq κ] (ps : List (κ × β))
    (m : κ) : m ∈ (dictOfList ps).map (·.1) ↔ m ∈ ps.map (·.1) := by
  rw [dictOfList, mem_keys_foldl_dictInsert]
  simp

theorem pyGet_isSome_iff {κ β : Type} [DecidableEq κ] (d : List (κ × β))
    (k : κ) : (pyGet d k).isSome ↔ k ∈ d.map (·.1) := by
  induction d with
  | nil => simp [pyGet]
  | cons p rest ih =>
    rw [pyGet_cons]
    by_cases h : p.1 = k
    · simp [h]
    · simp only [if_neg h, ih, List.map_cons, List.mem_cons]
      constructor
      · exact Or.inr
      · rintro (rfl | hm)
        · exact absurd rfl h
        · exact hm

theorem pyGet_map_of_nodup {κ β γ : Type} [DecidableEq κ] (key : γ → κ)
    (v : γ → β) (l : List γ) (h : (l.map key).Nodup) (e : γ) (he : e ∈ l) :
    pyGet (l.map (fun x => (key x, v x))) (key e) = some (v e) := by
  induction l with
  | nil => cases he
  | cons x rest ih =>
    rcases List.mem_cons.mp he with rfl | hrest
    · rw [List.map_cons, pyGet_cons]
      simp
    · rw [List.map_cons, pyGet_cons]
      have hx : ¬ key x = key e := by
        intro hkey
        have hmem : key e ∈ rest.map key := List.mem_map_of_mem key hrest
        exact (List.nodup_cons.mp h).1 (hkey ▸ hmem)
      rw [if_neg hx]
      exact ih (List.nodup_cons.mp h).2 hrest

theorem foldl_dictInsert_eq_dictOfList_map {κ β γ : Type} [DecidableEq κ]
    (key : γ → κ) (v : γ → β) (l : List γ) :
    l.foldl (fun d x => dictInsert (key x) (v x) d) [] =
      dictOfList (l.map (fun x => (key x, v x))) := by
  rw [dictOfList, List.foldl_map]

/-- C1: `total_count` is the sum of the two totals; `gender_score` is
`(girls_total - boys_total) / total_count` when the total is positive and
exactly `0` when the total is `0`; with non-negative totals the score lies in
`[-1, 1]`. -/
theorem C1_gender_score_range (nd : NameData)
    (hb : 0 ≤ nd.boys_total) (hg : 0 ≤ nd.girls_total) :
    nd.total_count = nd.boys_total + nd.girls_total ∧
    (nd.total_count = 0 → nd.gender_score = 0) ∧
    (0 < nd.total_count →
      nd.gender_score = (nd.girls_total - nd.boys_total) / nd.total_count) ∧
    (-1 ≤ nd.gender_score ∧ nd.gender_score ≤ 1) := by
  refine ⟨rfl, ?_, ?_, ?_⟩
  · intro h
    simp [NameData.gender_score, h]
  · intro h
    have : nd.total_count ≠ 0 := ne_of_gt h
    simp [NameData.gender_score, this]
  · by_cases h : nd.total_count = 0
    · simp [NameData.gender_score, h]
    · have hpos : 0 < nd.total_count := by
        rcases lt_or_eq_of_le (by simpa [NameData.total_count] using add_nonneg hb hg :
          (0:Rat) ≤ nd.total_count) with h1 | h1
        · exact h1
        · exact absurd h1.symm h
      constructor
      · rw [NameData.gender_score, if_neg h]
        rw [neg_le, ← neg_div]
        rw [div_le_one hpos]
        simp only [neg_sub]
        calc nd.boys_total - nd.girls_total ≤ nd.boys_total := by linarith
          _ ≤ nd.total_count := by simp [NameData.total_count]; linarith
      · rw [NameData.gender_score, if_neg h]
        rw [div_le_one hpos]
        calc nd.girls_total - nd.boys_total ≤ nd.girls_total := by linarith
          _ ≤ nd.total_count := by simp [NameData.total_count]; linarith

/-- C5: a target gender score outside [-1, +1] makes the `nearest` command fail
with the specific message "Error: target must be between -1.0 and 1.0", before
any computation over the entities: the result is the same error whatever the
dataset holds. -/
theorem C5_nearest_rejects_out_of_range (ds ds' : Dataset) (target : Rat)
    (n : Nat) (top : Int) (h : target < -1 ∨ 1 < target) :
    nearest ds target n top =
      Except.error "Error: target must be between -1.0 and 1.0" ∧
    nearest ds target n top = nearest ds' target n top := by
  have hc : ∀ d : Dataset, nearest d target n top =
      Except.error "Error: target must be between -1.0 and 1.0" := by
    intro d
    have hr : ¬ (-1 ≤ target ∧ target ≤ 1) := by
      rcases h with h | h
      · exact fun hx => absurd hx.1 (not_le.mpr h)
      · exact fun hx => absurd hx.2 (not_le.mpr h)
    simp [nearest, hr]
  exact ⟨hc ds, (hc ds).trans (hc ds').symm⟩

/-- Witness for C5 at target 2, on the empty dataset and a one-entity dataset. -/
theorem C5_nearest_rejects_out_of_range_witness :
    nearest {} 2 1 0 =
      Except.error "Error: target must be between -1.0 and 1.0" ∧
    nearest {} 2 1 0 =
      nearest { names := [("emma",
        { name := "emma", boys_total := 1, girls_total := 2 })] } 2 1 0 :=
  C5_nearest_rejects_out_of_range {}
    { names := [("emma", { name := "emma", boys_total := 1, girls_total := 2 })] }
    2 1 0 (Or.inr (by norm_num))

/-- C6: `load_yearly_data` is idempotent: after one call has completed, a second
call with any sources leaves the dataset (all entities' totals and yearly
sequences included) unchanged. -/
theorem C6_load_yearly_data_idempotent (ds : Dataset)
    (b1 g1 b2 g2 : List YearlyRow) :
    load_yearly_data (load_yearly_data ds b1 g1) b2 g2 =
      load_yearly_data ds b1 g1 := by
  by_cases h : ds.yearlyLoaded
  · simp [load_yearly_data, h]
  · simp [load_yearly_data, h]

/-- C2 counterexample: with boys source `[("Alex", 5)]` and girls source
`[("alex", 3)]` the catalog holds exactly one entity, stored under the
normalized key "alex", and that entity is `NameData "alex" 0 3` — whereas the
claim demands, for the normalized name "alex", the entity with `boys_total`
taken from the boys source (5, under the casing "Alex"), `girls_total` 3, and
the first-occurrence display casing "Alex".  The code instead unions and
iterates the original-cased names, looks each sex's total up by exact casing
(`boys_dict.get("alex")` misses), and lets the later sorted casing overwrite
the earlier one under their shared lower-cased key. -/
theorem C2_load_case_collision_counterexample :
    (load [("Alex", 5)] [("alex", 3)]).names =
      [("alex", { name := "alex", boys_total := 0, girls_total := 3 })] ∧
    pyGet (load [("Alex", 5)] [("alex", 3)]).names "alex" =
      some { name := "alex", boys_total := 0, girls_total := 3 } ∧
    ¬ pyGet (load [("Alex", 5)] [("alex", 3)]).names "alex" =
      some { name := "Alex", boys_total := 5, girls_total := 3 } ∧
    ¬ ({ name := "alex", boys_total := 0, girls_total := 3 } : NameData).boys_total = 5 ∧
    ¬ ({ name := "alex", boys_total := 0, girls_total := 3 } : NameData).name = "Alex" := by
  refine ⟨by decide, by decide, by decide, by decide, by decide⟩

/-- C2 (amended): when no two distinct original-cased names in the unioned
sources share a lower-cased form, `load` builds exactly one entity per
distinct normalized name, keyed by the lower-cased name, with the display name
in its original casing, `boys_total` the name's total in the boys source and
`girls_total` its total in the girls source, each defaulting to 0 when the
name is absent from that source; the keys are pairwise distinct, and the
name union is exactly the union of the sources' name sets. -/
theorem C2_load_structure (boysRows girlsRows : List (String × Rat))
    (hinj : ∀ a ∈ sortedUnionKeys (dictOfList boysRows) (dictOfList girlsRows),
            ∀ b ∈ sortedUnionKeys (dictOfList boysRows) (dictOfList girlsRows),
            strLower a = strLower b → a = b) :
    (load boysRows girlsRows).names =
      (sortedUnionKeys (dictOfList boysRows) (dictOfList girlsRows)).map
        (fun n => (strLower n,
          { name := n
            boys_total := (lastGet boysRows n).getD 0
            girls_total := (lastGet girlsRows n).getD 0 })) ∧
    ((load boysRows girlsRows).names.map (·.1)).Nodup ∧
    (∀ n : String,
      n ∈ sortedUnionKeys (dictOfList boysRows) (dictOfList girlsRows) ↔
        n ∈ boysRows.map (·.1) ∨ n ∈ girlsRows.map (·.1)) := by
  set A := sortedUnionKeys (dictOfList boysRows) (dictOfList girlsRows) with hA
  have hAnodup : A.Nodup := by
    rw [hA, sortedUnionKeys]
    exact (sortB_perm strLe _).symm.nodup (List.nodup_dedup _)
  have hkeys : (A.map strLower).Nodup := List.Nodup.map_on hinj hAnodup
  have hfold : (load boysRows girlsRows).names =
      A.foldl (fun d n =>
        dictInsert (strLower n) (loadEntity boysRows girlsRows n) d) [] := rfl
  have hnames : (load boysRows girlsRows).names =
      A.map (fun n => (strLower n, loadEntity boysRows girlsRows n)) := by
    rw [hfold,
      foldl_dictInsert_eq_dictOfList_map strLower (loadEntity boysRows girlsRows) A]
    apply dictOfList_eq_self
    simpa [List.map_map, Function.comp] using hkeys
  refine ⟨?_, ?_, ?_⟩
  · rw [hnames]
    simp only [loadEntity, pyGet_dictOfList]
  · rw [hnames]
    simpa [List.map_map, Function.comp] using hkeys
  · intro n
    rw [hA, sortedUnionKeys, mem_sortB, List.mem_dedup, List.mem_append,
      mem_keys_dictOfList, mem_keys_dictOfList]

/-- Witness for C2 (amended) on disjoint, already-lowercase sources. -/
theorem C2_load_structure_witness :
    (load [("liam", 5)] [("emma", 3)]).names =
      (sortedUnionKeys (dictOfList [("liam", 5)]) (dictOfList [("emma", 3)])).map
        (fun n => (strLower n,
          { name := n
            boys_total := (lastGet [("liam", 5)] n).getD 0
            girls_total := (lastGet [("emma", 3)] n).getD 0 })) ∧
    ((load [("liam", 5)] [("emma", 3)]).names.map (·.1)).Nodup ∧
    (∀ n : String,
      n ∈ sortedUnionKeys (dictOfList [("liam", 5)]) (dictOfList [("emma", 3)]) ↔
        n ∈ [("liam", (5 : Rat))].map (·.1) ∨ n ∈ [("emma", (3 : Rat))].map (·.1)) :=
  C2_load_structure [("liam", 5)] [("emma", 3)] (by decide)

/-- Witness for C1 at a concrete entity with boys_total = 1, girls_total = 3. -/
theorem C1_gender_score_range_witness :
    let nd : NameData := { name := "emma", boys_total := 1, girls_total := 3 }
    nd.total_count = nd.boys_total + nd.girls_total ∧
    (nd.total_count = 0 → nd.gender_score = 0) ∧
    (0 < nd.total_count →
      nd.gender_score = (nd.girls_total - nd.boys_total) / nd.total_count) ∧
    (-1 ≤ nd.gender_score ∧ nd.gender_score ≤ 1) :=
  C1_gender_score_range { name := "emma", boys_total := 1, girls_total := 3 }
    (by norm_num) (by norm_num)

/-! ### Year-dict and year-sort helper lemmas -/

theorem intLe_total : ∀ a b : Int, decide (a ≤ b) = true ∨ decide (b ≤ a) = true := by
  intro a b
  rcases le_total a b with h | h
  · exact Or.inl (by simpa)
  · exact Or.inr (by simpa)

theorem intLe_trans : ∀ a b c : Int,
    decide (a ≤ b) = true → decide (b ≤ c) = true → decide (a ≤ c) = true := by
  intro a b c hab hbc
  simp only [decide_eq_true_eq] at hab hbc ⊢
  exact le_trans hab hbc

theorem sortB_int_lt (l : List Int) (h : l.Nodup) :
    (sortB (fun a b => decide (a ≤ b)) l).Pairwise (fun a b => a < b) := by
  have hs := pairwise_sortB (fun a b : Int => decide (a ≤ b)) intLe_total intLe_trans l
  have hn : (sortB (fun a b => decide (a ≤ b)) l).Nodup :=
    (sortB_perm (fun a b => decide (a ≤ b)) l).symm.nodup h
  exact (hs.and hn).imp
    (fun hab => lt_of_le_of_ne (by simpa using hab.1) hab.2)

theorem lastGet_map_pair {κ β γ : Type} [DecidableEq κ] (key : γ → κ) (v : γ → β)
    (l : List γ) (k : κ) :
    lastGet (l.map (fun x => (key x, v x))) k =
      (l.reverse.find? (fun x => decide (key x = k))).map v := by
  unfold lastGet
  rw [show (l.map (fun x => (key x, v x))).reverse
      = l.reverse.map (fun x => (key x, v x)) from (List.map_reverse _ _).symm]
  rw [List.find?_map]
  rw [Option.map_map]
  rfl

theorem dgetD_yearDict (l : List YearlyCount) (y : Int) :
    dgetD (yearDict l) y = lastVal l y := by
  unfold dgetD yearDict lastVal
  rw [pyGet_dictOfList,
    lastGet_map_pair (fun yc : YearlyCount => yc.year) (fun yc => yc.count) l y]

theorem mem_keys_yearDict (l : List YearlyCount) (y : Int) :
    y ∈ (yearDict l).map (·.1) ↔ y ∈ yearsOf l := by
  rw [yearDict, mem_keys_dictOfList, yearsOf, List.map_map]
  exact Iff.rfl

theorem map_fst_map_pair {γ δ : Type} (l : List γ) (g : γ → δ) :
    ((l.map (fun y => (y, g y))).map (·.1)) = l := by
  induction l with
  | nil => rfl
  | cons a t ih => simp only [List.map_cons, ih]

/-- C9: for every entity with yearly data loaded, the combined time series is
strictly ascending in year, carries exactly the union of the boys and girls
year sets, and its value at each year is the boys value plus the girls value
for that year (0 for a sex with no entry). -/
theorem C9_combined_time_series (nd : NameData) (h : nd.has_yearly_data = true) :
    ((get_time_series nd .combined).map (·.1)).Pairwise (fun a b => a < b) ∧
    (∀ y : Int, y ∈ (get_time_series nd .combined).map (·.1) ↔
      y ∈ yearsOf (nd.boys_yearly.getD []) ∨
      y ∈ yearsOf (nd.girls_yearly.getD [])) ∧
    (∀ p ∈ get_time_series nd .combined,
      p.2 = lastVal (nd.boys_yearly.getD []) p.1 +
            lastVal (nd.girls_yearly.getD []) p.1) := by
  have hts : get_time_series nd .combined =
      (sortB (fun a b => decide (a ≤ b))
        (((yearDict (nd.boys_yearly.getD [])).map (·.1) ++
          (yearDict (nd.girls_yearly.getD [])).map (·.1)).dedup)).map
        (fun y => (y, dgetD (yearDict (nd.boys_yearly.getD [])) y +
                      dgetD (yearDict (nd.girls_yearly.getD [])) y)) := by
    simp [get_time_series, h]
  refine ⟨?_, ?_, ?_⟩
  · rw [hts, map_fst_map_pair]
    exact sortB_int_lt _ (List.nodup_dedup _)
  · intro y
    rw [hts, map_fst_map_pair, mem_sortB, List.mem_dedup, List.mem_append,
      mem_keys_yearDict, mem_keys_yearDict]
  · intro p hp
    rw [hts] at hp
    rcases List.mem_map.mp hp with ⟨y, _, rfl⟩
    simp only [dgetD_yearDict]

/-- Witness for C9 at an entity with boys years {2000, 2001} and girls
year {2001}. -/
theorem C9_combined_time_series_witness :
    ((get_time_series
        { name := "x", boys_total := 7, girls_total := 4,
          boys_yearly := some [{ year := 2000, count := 3 }, { year := 2001, count := 4 }],
          girls_yearly := some [{ year := 2001, count := 4 }] } .combined).map (·.1)).Pairwise
        (fun a b => a < b) ∧
    (∀ y : Int, y ∈ (get_time_series
        { name := "x", boys_total := 7, girls_total := 4,
          boys_yearly := some [{ year := 2000, count := 3 }, { year := 2001, count := 4 }],
          girls_yearly := some [{ year := 2001, count := 4 }] } .combined).map (·.1) ↔
      y ∈ yearsOf (Option.getD (some [{ year := 2000, count := 3 }, { year := 2001, count := 4 }]) []) ∨
      y ∈ yearsOf (Option.getD (some [{ year := 2001, count := 4 }]) [])) ∧
    (∀ p ∈ get_time_series
        { name := "x", boys_total := 7, girls_total := 4,
          boys_yearly := some [{ year := 2000, count := 3 }, { year := 2001, count := 4 }],
          girls_yearly := some [{ year := 2001, count := 4 }] } .combined,
      p.2 = lastVal (Option.getD (some [{ year := 2000, count := 3 }, { year := 2001, count := 4 }]) []) p.1 +
            lastVal (Option.getD (some [{ year := 2001, count := 4 }]) []) p.1) :=
  C9_combined_time_series
    { name := "x", boys_total := 7, girls_total := 4,
      boys_yearly := some [{ year := 2000, count := 3 }, { year := 2001, count := 4 }],
      girls_yearly := some [{ year := 2001, count := 4 }] } (by decide)

/-- C3 counterexample: an entity whose boys yearly sequence is present but
empty (`some []`) and whose girls yearly sequence holds year 2000 with count 5.
Neither sequence is absent, so the claim demands the year-2000 score
`(5 - 0) / 5 = 1` to be emitted; the code returns the empty list, because
Python truthiness (`if not name_data.boys_yearly`) treats an empty list like
`None`. -/
theorem C3_yearly_scores_counterexample :
    calculate_yearly_gender_scores
      { name := "x", boys_total := 0, girls_total := 5,
        boys_yearly := some [], girls_yearly := some [{ year := 2000, count := 5 }] } = [] ∧
    ({ name := "x", boys_total := 0, girls_total := 5,
       boys_yearly := some [], girls_yearly := some [{ year := 2000, count := 5 }] }
       : NameData).boys_yearly ≠ none ∧
    ({ name := "x", boys_total := 0, girls_total := 5,
       boys_yearly := some [], girls_yearly := some [{ year := 2000, count := 5 }] }
       : NameData).girls_yearly ≠ none ∧
    ((2000 : Int), (1 : Rat)) ∉ calculate_yearly_gender_scores
      { name := "x", boys_total := 0, girls_total := 5,
        boys_yearly := some [], girls_yearly := some [{ year := 2000, count := 5 }] } := by
  refine ⟨by decide, by decide, by decide, by decide⟩

/-- C3 (amended): `calculate_yearly_gender_scores` returns the empty sequence
when either yearly sequence is absent or empty (Python falsiness); otherwise
the result is strictly ascending in year and holds `(y, s)` exactly when `y`
lies in the union of the two year sets, the combined count at `y` is positive,
and `s` is `(girls - boys) / combined` at `y`; years with combined count 0 are
omitted. -/
theorem C3_yearly_gender_scores (nd : NameData) :
    ((optListTruthy nd.boys_yearly = false ∨ optListTruthy nd.girls_yearly = false) →
      calculate_yearly_gender_scores nd = []) ∧
    (optListTruthy nd.boys_yearly = true → optListTruthy nd.girls_yearly = true →
      ((calculate_yearly_gender_scores nd).map (·.1)).Pairwise (fun a b => a < b) ∧
      (∀ (y : Int) (s : Rat), (y, s) ∈ calculate_yearly_gender_scores nd ↔
        (y ∈ yearsOf (nd.boys_yearly.getD []) ∨
         y ∈ yearsOf (nd.girls_yearly.getD [])) ∧
        0 < lastVal (nd.boys_yearly.getD []) y + lastVal (nd.girls_yearly.getD []) y ∧
        s = (lastVal (nd.girls_yearly.getD []) y - lastVal (nd.boys_yearly.getD []) y) /
            (lastVal (nd.boys_yearly.getD []) y + lastVal (nd.girls_yearly.getD []) y))) := by
  constructor
  · rintro (h | h) <;> simp [calculate_yearly_gender_scores, h]
  · intro hb hg
    have hcalc : calculate_yearly_gender_scores nd =
        (sortB (fun a b => decide (a ≤ b))
          (((yearDict (nd.boys_yearly.getD [])).map (·.1) ++
            (yearDict (nd.girls_yearly.getD [])).map (·.1)).dedup)).filterMap
          (fun y =>
            if 0 < dgetD (yearDict (nd.boys_yearly.getD [])) y +
                  dgetD (yearDict (nd.girls_yearly.getD [])) y then
              some (y, (dgetD (yearDict (nd.girls_yearly.getD [])) y -
                        dgetD (yearDict (nd.boys_yearly.getD [])) y) /
                       (dgetD (yearDict (nd.boys_yearly.getD [])) y +
                        dgetD (yearDict (nd.girls_yearly.getD [])) y))
            else none) := by
      simp [calculate_yearly_gender_scores, hb, hg]
    constructor
    · rw [hcalc]
      have hsorted := sortB_int_lt
        (((yearDict (nd.boys_yearly.getD [])).map (·.1) ++
          (yearDict (nd.girls_yearly.getD [])).map (·.1)).dedup) (List.nodup_dedup _)
      have hsub : ∀ ys : List Int, ((ys.filterMap
            (fun y =>
              if 0 < dgetD (yearDict (nd.boys_yearly.getD [])) y +
                    dgetD (yearDict (nd.girls_yearly.getD [])) y then
                some (y, (dgetD (yearDict (nd.girls_yearly.getD [])) y -
                          dgetD (yearDict (nd.boys_yearly.getD [])) y) /
                         (dgetD (yearDict (nd.boys_yearly.getD [])) y +
                          dgetD (yearDict (nd.girls_yearly.getD [])) y))
              else none)).map (·.1)).Sublist ys := by
        intro ys
        induction ys with
        | nil => simp
        | cons a t ih =>
          by_cases h : 0 < dgetD (yearDict (nd.boys_yearly.getD [])) a +
              dgetD (yearDict (nd.girls_yearly.getD [])) a
          · simp only [List.filterMap_cons, if_pos h, List.map_cons]
            exact ih.cons₂ a
          · simp only [List.filterMap_cons, if_neg h]
            exact ih.cons a
      exact hsorted.sublist (hsub _)
    · intro y s
      rw [hcalc]
      constructor
      · intro hmem
        rcases List.mem_filterMap.mp hmem with ⟨y', hy', hfn⟩
        by_cases hp : 0 < dgetD (yearDict (nd.boys_yearly.getD [])) y' +
            dgetD (yearDict (nd.girls_yearly.getD [])) y'
        · rw [if_pos hp] at hfn
          have heq := Option.some.inj hfn
          have hy : y' = y := congrArg Prod.fst heq
          subst hy
          have hs : s = (dgetD (yearDict (nd.girls_yearly.getD [])) y' -
                    dgetD (yearDict (nd.boys_yearly.getD [])) y') /
                   (dgetD (yearDict (nd.boys_yearly.getD [])) y' +
                    dgetD (yearDict (nd.girls_yearly.getD [])) y') :=
            (congrArg Prod.snd heq).symm
          subst hs
          refine ⟨?_, ?_, ?_⟩
          · have hmem' := (mem_sortB _ _ y').mp hy'
            rw [List.mem_dedup, List.mem_append, mem_keys_yearDict,
              mem_keys_yearDict] at hmem'
            exact hmem'
          · simpa [dgetD_yearDict] using hp
          · simp [dgetD_yearDict]
        · rw [if_neg hp] at hfn
          cases hfn
      · rintro ⟨hyin, hpos, rfl⟩
        refine List.mem_filterMap.mpr ⟨y, ?_, ?_⟩
        · rw [mem_sortB, List.mem_dedup, List.mem_append, mem_keys_yearDict,
            mem_keys_yearDict]
          exact hyin
        · rw [if_pos (by simpa [dgetD_yearDict] using hpos)]
          simp [dgetD_yearDict]

/-- Witness for C3 (amended): applies the theorem at an entity with an absent
girls sequence (first conjunct's hypothesis) and at an entity with both
sequences present and non-empty (second conjunct's hypotheses). -/
theorem C3_yearly_gender_scores_witness :
    calculate_yearly_gender_scores
      { name := "a", boys_total := 3, girls_total := 0,
        boys_yearly := some [{ year := 2000, count := 3 }], girls_yearly := none } = [] ∧
    (((calculate_yearly_gender_scores
        { name := "b", boys_total := 3, girls_total := 1,
          boys_yearly := some [{ year := 2000, count := 3 }],
          girls_yearly := some [{ year := 2001, count := 1 }] }).map (·.1)).Pairwise
      (fun a b => a < b)) := by
  constructor
  · exact (C3_yearly_gender_scores
      { name := "a", boys_total := 3, girls_total := 0,
        boys_yearly := some [{ year := 2000, count := 3 }],
        girls_yearly := none }).1 (Or.inr (by decide))
  · exact ((C3_yearly_gender_scores
      { name := "b", boys_total := 3, girls_total := 1,
        boys_yearly := some [{ year := 2000, count := 3 }],
        girls_yearly := some [{ year := 2001, count := 1 }] }).2
      (by decide) (by decide)).1

/-! ### Enumeration and rational-key comparator lemmas -/

theorem fst_ge_of_mem_enumFrom {α : Type} (l : List α) :
    ∀ (n : Nat) (q : Nat × α), q ∈ l.enumFrom n → n ≤ q.1 := by
  induction l with
  | nil => intro n q h; cases h
  | cons a t ih =>
    intro n q h
    rcases List.mem_cons.mp h with rfl | h
    · exact le_refl n
    · exact le_trans (Nat.le_succ n) (ih (n + 1) q h)

theorem enumFrom_pairwise_fst_lt {α : Type} (l : List α) :
    ∀ n : Nat, (l.enumFrom n).Pairwise (fun p q => p.1 < q.1) := by
  induction l with
  | nil => intro n; simp [List.enumFrom]
  | cons a t ih =>
    intro n
    refine List.Pairwise.cons ?_ (ih (n + 1))
    intro q hq
    exact lt_of_lt_of_le (Nat.lt_succ_self n) (fst_ge_of_mem_enumFrom t (n + 1) q hq)

theorem enum_pairwise_fst_lt {α : Type} (l : List α) :
    l.enum.Pairwise (fun p q => p.1 < q.1) :=
  enumFrom_pairwise_fst_lt l 0

theorem keyLe_total {α : Type} (f : α → Rat) :
    ∀ a b : α, decide (f a ≤ f b) = true ∨ decide (f b ≤ f a) = true := by
  intro a b
  rcases le_total (f a) (f b) with h | h
  · exact Or.inl (by simpa)
  · exact Or.inr (by simpa)

theorem keyLe_trans {α : Type} (f : α → Rat) :
    ∀ a b c : α, decide (f a ≤ f b) = true → decide (f b ≤ f c) = true →
      decide (f a ≤ f c) = true := by
  intro a b c hab hbc
  simp only [decide_eq_true_eq] at hab hbc ⊢
  exact le_trans hab hbc

theorem keyGe_total {α : Type} (f : α → Rat) :
    ∀ a b : α, decide (f b ≤ f a) = true ∨ decide (f a ≤ f b) = true := by
  intro a b
  rcases keyLe_total f a b with h | h
  · exact Or.inr h
  · exact Or.inl h

theorem keyGe_trans {α : Type} (f : α → Rat) :
    ∀ a b c : α, decide (f b ≤ f a) = true → decide (f c ≤ f b) = true →
      decide (f c ≤ f a) = true := by
  intro a b c hab hbc
  exact keyLe_trans f c b a hbc hab

/-- C4: `find_closest_to_score` equals "stable-sort all entities ascending by
`abs(gender_score - target)`, take the first n": the sort is a permutation of
the input, non-decreasing in distance, and stable (on the index-tagged input,
equal distances keep the original index order); and on the five-entity catalog
scored [-0.9, -0.1, 0.05, 0.2, 0.95] with target 0 and n = 3 the result is the
entities scored [0.05, -0.1, 0.2]. -/
theorem C4_find_closest_stable (names : List NameData) (target : Rat) (n : Nat) :
    find_closest_to_score names target n =
      (sortB (fun a b => decide (scoreDist a target ≤ scoreDist b target)) names).take n ∧
    List.Perm
      (sortB (fun a b => decide (scoreDist a target ≤ scoreDist b target)) names)
      names ∧
    (sortB (fun a b => decide (scoreDist a target ≤ scoreDist b target)) names).Pairwise
      (fun a b => scoreDist a target ≤ scoreDist b target) ∧
    (sortB (fun p q => decide (scoreDist p.2 target ≤ scoreDist q.2 target))
        names.enum).map (·.2) =
      sortB (fun a b => decide (scoreDist a target ≤ scoreDist b target)) names ∧
    (sortB (fun p q => decide (scoreDist p.2 target ≤ scoreDist q.2 target))
        names.enum).Pairwise
      (fun p q => scoreDist p.2 target = scoreDist q.2 target → p.1 < q.1) ∧
    find_closest_to_score
      [{ name := "v", boys_total := 19/10, girls_total := 1/10 },
       { name := "w", boys_total := 11/10, girls_total := 9/10 },
       { name := "x", boys_total := 19/20, girls_total := 21/20 },
       { name := "y", boys_total := 4/5, girls_total := 6/5 },
       { name := "z", boys_total := 1/20, girls_total := 39/20 }] 0 3 =
      [{ name := "x", boys_total := 19/20, girls_total := 21/20 },
       { name := "w", boys_total := 11/10, girls_total := 9/10 },
       { name := "y", boys_total := 4/5, girls_total := 6/5 }] := by
  refine ⟨?_, sortB_perm _ names, ?_, ?_, ?_, by
    norm_num [find_closest_to_score, sortB, insertB, NameData.gender_score,
      NameData.total_count, abs_of_nonneg]⟩
  · show ((sortB (fun x y => decide (x.2 ≤ y.2))
        (names.map (fun nd => (nd, scoreDist nd target)))).take n).map (·.1) = _
    rw [← map_sortB (fun a b => decide (scoreDist a target ≤ scoreDist b target))
      (fun x y : NameData × Rat => decide (x.2 ≤ y.2))
      (fun nd => (nd, scoreDist nd target)) (fun a b => rfl) names]
    rw [show ((sortB (fun a b => decide (scoreDist a target ≤ scoreDist b target))
        names).map (fun nd => (nd, scoreDist nd target))).take n
      = ((sortB (fun a b => decide (scoreDist a target ≤ scoreDist b target))
        names).take n).map (fun nd => (nd, scoreDist nd target)) from
      (List.map_take _ _ _).symm]
    exact map_fst_map_pair _ _
  · exact (pairwise_sortB _ (keyLe_total (fun nd => scoreDist nd target))
      (keyLe_trans (fun nd => scoreDist nd target)) names).imp
      (fun h => by simpa using h)
  · rw [map_sortB (fun p q : Nat × NameData =>
        decide (scoreDist p.2 target ≤ scoreDist q.2 target))
      (fun a b => decide (scoreDist a target ≤ scoreDist b target))
      Prod.snd (fun a b => rfl) names.enum]
    rw [List.enum_map_snd]
  · have hlex := pairwise_sortB_lex
      (fun p q : Nat × NameData => decide (scoreDist p.2 target ≤ scoreDist q.2 target))
      (keyLe_total (fun p : Nat × NameData => scoreDist p.2 target))
      (keyLe_trans (fun p : Nat × NameData => scoreDist p.2 target))
      Prod.fst names.enum (enum_pairwise_fst_lt names)
    exact hlex.imp (fun h heq => h.2 (by simpa using heq.ge))

/-! ### Ranking helper lemmas -/

theorem mem_dictInsert {κ β : Type} [DecidableEq κ] (k : κ) (v : β)
    (d : List (κ × β)) (p : κ × β) (hp : p ∈ dictInsert k v d) :
    p = (k, v) ∨ p ∈ d := by
  induction d with
  | nil => simpa [dictInsert] using hp
  | cons q rest ih =>
    by_cases hq : q.1 = k
    · rw [dictInsert, if_pos hq] at hp
      rcases List.mem_cons.mp hp with rfl | hp
      · exact Or.inl rfl
      · exact Or.inr (List.mem_cons_of_mem q hp)
    · rw [dictInsert, if_neg hq] at hp
      rcases List.mem_cons.mp hp with rfl | hp
      · exact Or.inr (List.mem_cons_self _ _)
      · rcases ih hp with h | h
        · exact Or.inl h
        · exact Or.inr (List.mem_cons_of_mem _ h)

theorem nodup_keys_dictInsert {κ β : Type} [DecidableEq κ] (k : κ) (v : β)
    (d : List (κ × β)) (h : (d.map (·.1)).Nodup) :
    ((dictInsert k v d).map (·.1)).Nodup := by
  induction d with
  | nil => simp [dictInsert]
  | cons q rest ih =>
    rw [List.map_cons] at h
    rcases List.nodup_cons.mp h with ⟨hq, hrest⟩
    by_cases hk : q.1 = k
    · rw [dictInsert, if_pos hk]
      simp only [List.map_cons]
      exact List.nodup_cons.mpr ⟨hk ▸ hq, hrest⟩
    · rw [dictInsert, if_neg hk]
      simp only [List.map_cons]
      refine List.nodup_cons.mpr ⟨?_, ih hrest⟩
      intro hmem
      rcases (mem_keys_dictInsert k q.1 v rest).mp hmem with he | he
      · exact hk he
      · exact hq he

theorem nodup_keys_foldl_dictInsert {κ β γ : Type} [DecidableEq κ]
    (key : γ → κ) (v : γ → β) (l : List γ) :
    ∀ acc : List (κ × β), (acc.map (·.1)).Nodup →
      ((l.foldl (fun d x => dictInsert (key x) (v x) d) acc).map (·.1)).Nodup := by
  induction l with
  | nil => intro acc h; exact h
  | cons a t ih =>
    intro acc h
    rw [List.foldl_cons]
    exact ih _ (nodup_keys_dictInsert (key a) (v a) acc h)

theorem mem_foldl_dictInsert_map {κ β γ : Type} [DecidableEq κ] (key : γ → κ)
    (v : γ → β) (l : List γ) :
    ∀ (acc : List (κ × β)) (p : κ × β),
      p ∈ l.foldl (fun d x => dictInsert (key x) (v x) d) acc →
      p ∈ acc ∨ ∃ x, x ∈ l ∧ p = (key x, v x) := by
  induction l with
  | nil => intro acc p hp; exact Or.inl hp
  | cons a t ih =>
    intro acc p hp
    rw [List.foldl_cons] at hp
    rcases ih _ p hp with h | ⟨x, hx, rfl⟩
    · rcases mem_dictInsert _ _ _ _ h with rfl | h
      · exact Or.inr ⟨a, List.mem_cons_self a t, rfl⟩
      · exact Or.inl h
    · exact Or.inr ⟨x, List.mem_cons_of_mem a hx, rfl⟩

theorem mapOrFail_eq_some {α β : Type} (f : α → Option β) (g : α → β) :
    ∀ l : List α, (∀ x ∈ l, f x = some (g x)) →
      mapOrFail f l = some (l.map g) := by
  intro l
  induction l with
  | nil => intro _; rfl
  | cons a t ih =>
    intro h
    have ha := h a (List.mem_cons_self a t)
    have ht := ih (fun x hx => h x (List.mem_cons_of_mem a hx))
    simp only [mapOrFail, ha, ht, List.map_cons]

theorem keys_rankPairs (l : List NameData) :
    ((l.enum.map (fun p => (p.2.name, p.1 + 1))).map (·.1)) = l.map (·.name) := by
  rw [List.map_map]
  show l.enum.map (fun p => p.2.name) = l.map (·.name)
  rw [show (fun p : Nat × NameData => p.2.name) =
      ((fun nd : NameData => nd.name) ∘ Prod.snd) from rfl, ← List.map_map,
    List.enum_map_snd]

theorem rankDict_eq (l : List NameData) (h : (l.map (·.name)).Nodup) :
    rankDict l = l.enum.map (fun p => (p.2.name, p.1 + 1)) := by
  rw [rankDict]
  apply dictOfList_eq_self
  rw [keys_rankPairs]
  exact h

theorem pyGet_enumFrom_rank (l : List NameData) :
    ∀ (n i : Nat) (hi : i < l.length), (l.map (·.name)).Nodup →
      pyGet ((l.enumFrom n).map (fun p => (p.2.name, p.1 + 1)))
        (l.get ⟨i, hi⟩).name = some (n + i + 1) := by
  induction l with
  | nil => intro n i hi _; exact absurd hi (Nat.not_lt_zero i)
  | cons x xs ih =>
    intro n i hi h
    rw [List.map_cons] at h
    rcases List.nodup_cons.mp h with ⟨hx, h2⟩
    cases i with
    | zero =>
      show pyGet (((n, x) :: xs.enumFrom (n + 1)).map
        (fun p => (p.2.name, p.1 + 1))) x.name = some (n + 0 + 1)
      rw [List.map_cons, pyGet_cons]
      simp
    | succ j =>
      have hj : j < xs.length := Nat.lt_of_succ_lt_succ hi
      show pyGet (((n, x) :: xs.enumFrom (n + 1)).map
        (fun p => (p.2.name, p.1 + 1))) (xs.get ⟨j, hj⟩).name = some (n + (j + 1) + 1)
      rw [List.map_cons, pyGet_cons]
      have hne : ¬ x.name = (xs.get ⟨j, hj⟩).name := by
        intro he
        exact hx (he ▸ List.mem_map_of_mem (fun nd : NameData => nd.name)
          (xs.get_mem j hj))
      rw [if_neg hne, ih (n + 1) j hj h2]
      congr 1
      omega

theorem rankOf_get (l : List NameData) (h : (l.map (·.name)).Nodup)
    (i : Nat) (hi : i < l.length) :
    pyGet (rankDict l) (l.get ⟨i, hi⟩).name = some (i + 1) := by
  rw [rankDict_eq l h]
  have hr := pyGet_enumFrom_rank l 0 i hi h
  simpa using hr

theorem map_rankOf_eq_range' (l : List NameData) (h : (l.map (·.name)).Nodup) :
    l.map (fun e => (pyGet (rankDict l) e.name).getD 0) =
      List.range' 1 l.length := by
  apply List.ext_get
  · simp
  · intro i h1 h2
    have hi : i < l.length := by simpa using h1
    rw [List.get_map]
    rw [rankOf_get l h i hi]
    have := List.get_range' i h2
    simp only [this, Option.getD_some]
    omega

theorem sortB_names_nodup (entities : List NameData) (le : NameData → NameData → Bool)
    (h : (entities.map (·.name)).Nodup) :
    ((sortB le entities).map (·.name)).Nodup :=
  (((sortB_perm le entities).map (fun nd : NameData => nd.name)).symm).nodup h

theorem dim_rank_perm (entities : List NameData) (f : NameData → Rat)
    (h : (entities.map (·.name)).Nodup) :
    List.Perm
      (entities.map (fun e =>
        (pyGet (rankDict (sortB (fun a b => decide (f b ≤ f a)) entities))
          e.name).getD 0))
      (List.range' 1 entities.length) := by
  have hperm := sortB_perm (fun a b => decide (f b ≤ f a)) entities
  have h' := sortB_names_nodup entities (fun a b => decide (f b ≤ f a)) h
  have hmap := map_rankOf_eq_range' _ h'
  have hp := hperm.symm.map (fun e =>
    (pyGet (rankDict (sortB (fun a b => decide (f b ≤ f a)) entities)) e.name).getD 0)
  rw [hmap, hperm.length_eq] at hp
  exact hp

theorem dim_rank_top (entities : List NameData) (f : NameData → Rat)
    (h : (entities.map (·.name)).Nodup) :
    ∀ e ∈ entities,
      (pyGet (rankDict (sortB (fun a b => decide (f b ≤ f a)) entities))
        e.name).getD 0 = 1 →
      ∀ e' ∈ entities, f e' ≤ f e := by
  intro e he hrank e' he'
  have hperm := sortB_perm (fun a b => decide (f b ≤ f a)) entities
  have h' := sortB_names_nodup entities (fun a b => decide (f b ≤ f a)) h
  have hes : e ∈ sortB (fun a b => decide (f b ≤ f a)) entities :=
    hperm.mem_iff.mpr he
  obtain ⟨⟨i, hi⟩, hget⟩ := List.mem_iff_get.mp hes
  have hr := rankOf_get _ h' i hi
  rw [hget] at hr
  rw [hr, Option.getD_some] at hrank
  obtain rfl : i = 0 := by omega
  have he's : e' ∈ sortB (fun a b => decide (f b ≤ f a)) entities :=
    hperm.mem_iff.mpr he'
  obtain ⟨⟨j, hj⟩, hgetj⟩ := List.mem_iff_get.mp he's
  rcases Nat.eq_zero_or_pos j with hj0 | hjpos
  · subst hj0
    have : e' = e := by rw [← hget, ← hgetj]
    rw [this]
  · have hp := pairwise_sortB (fun a b => decide (f b ≤ f a))
      (keyGe_total f) (keyGe_trans f) entities
    have hrel := List.pairwise_iff_get.mp hp ⟨0, hi⟩ ⟨j, hj⟩
      (by exact hjpos)
    rw [hget, hgetj] at hrel
    exact of_decide_eq_true hrel

theorem dim_rank_stable (entities : List NameData) (f : NameData → Rat)
    (h : (entities.map (·.name)).Nodup) :
    entities.Pairwise (fun a b => f a = f b →
      (pyGet (rankDict (sortB (fun a b => decide (f b ≤ f a)) entities))
        a.name).getD 0 <
      (pyGet (rankDict (sortB (fun a b => decide (f b ≤ f a)) entities))
        b.name).getD 0) := by
  have hmapsort : (sortB (fun p q : Nat × NameData => decide (f q.2 ≤ f p.2))
      entities.enum).map Prod.snd =
      sortB (fun a b => decide (f b ≤ f a)) entities := by
    rw [map_sortB (fun p q : Nat × NameData => decide (f q.2 ≤ f p.2))
      (fun a b => decide (f b ≤ f a)) Prod.snd (fun a b => rfl) entities.enum,
      List.enum_map_snd]
  have h' := sortB_names_nodup entities (fun a b => decide (f b ≤ f a)) h
  have hlex := pairwise_sortB_lex
    (fun p q : Nat × NameData => decide (f q.2 ≤ f p.2))
    (keyGe_total (fun p : Nat × NameData => f p.2))
    (keyGe_trans (fun p : Nat × NameData => f p.2))
    Prod.fst entities.enum (enum_pairwise_fst_lt entities)
  apply List.pairwise_iff_getElem.mpr
  intro i j hi hj hij heq
  have henl : entities.enum.length = entities.length := List.enum_length
  have hie : i < entities.enum.length := by omega
  have hje : j < entities.enum.length := by omega
  have hpmem : (i, entities[i]) ∈ entities.enum := by
    have hgi : entities.enum[i] = (i, entities[i]) := List.getElem_enum ..
    rw [← hgi]
    exact List.getElem_mem _
  have hqmem : (j, entities[j]) ∈ entities.enum := by
    have hgj : entities.enum[j] = (j, entities[j]) := List.getElem_enum ..
    rw [← hgj]
    exact List.getElem_mem _
  have hps : (i, entities[i]) ∈
      sortB (fun p q : Nat × NameData => decide (f q.2 ≤ f p.2)) entities.enum :=
    (sortB_perm _ _).mem_iff.mpr hpmem
  have hqs : (j, entities[j]) ∈
      sortB (fun p q : Nat × NameData => decide (f q.2 ≤ f p.2)) entities.enum :=
    (sortB_perm _ _).mem_iff.mpr hqmem
  obtain ⟨pi, hpi, hgetp⟩ := List.mem_iff_getElem.mp hps
  obtain ⟨pj, hpj, hgetq⟩ := List.mem_iff_getElem.mp hqs
  have hpij : pi < pj := by
    rcases lt_trichotomy pi pj with hlt | heqp | hgt
    · exact hlt
    · exfalso
      subst heqp
      rw [hgetq] at hgetp
      have : j = i := congrArg Prod.fst hgetp
      omega
    · exfalso
      have hrel := List.pairwise_iff_getElem.mp hlex pj pi hpj hpi hgt
      rw [hgetp, hgetq] at hrel
      have hle : (fun p q : Nat × NameData => decide (f q.2 ≤ f p.2))
          (i, entities[i]) (j, entities[j]) = true := by
        simp only [decide_eq_true_eq]
        exact heq.ge
      have := hrel.2 hle
      simp only at this
      omega
  have hslen : (sortB (fun a b => decide (f b ≤ f a)) entities).length =
      entities.length :=
    (sortB_perm _ _).length_eq
  have hmaplen : ((sortB (fun p q : Nat × NameData => decide (f q.2 ≤ f p.2))
      entities.enum).map Prod.snd).length = entities.length := by
    rw [hmapsort, hslen]
  have hbi : pi < ((sortB (fun p q : Nat × NameData => decide (f q.2 ≤ f p.2))
      entities.enum).map Prod.snd).length := by
    rw [List.length_map]
    exact hpi
  have hbj : pj < ((sortB (fun p q : Nat × NameData => decide (f q.2 ≤ f p.2))
      entities.enum).map Prod.snd).length := by
    rw [List.length_map]
    exact hpj
  have h'' : (((sortB (fun p q : Nat × NameData => decide (f q.2 ≤ f p.2))
      entities.enum).map Prod.snd).map (·.name)).Nodup := by
    rw [hmapsort]
    exact h'
  have hri := rankOf_get ((sortB (fun p q : Nat × NameData => decide (f q.2 ≤ f p.2))
    entities.enum).map Prod.snd) h'' pi hbi
  have hrj := rankOf_get ((sortB (fun p q : Nat × NameData => decide (f q.2 ≤ f p.2))
    entities.enum).map Prod.snd) h'' pj hbj
  have hgeti : ((sortB (fun p q : Nat × NameData => decide (f q.2 ≤ f p.2))
      entities.enum).map Prod.snd).get ⟨pi, hbi⟩ = entities[i] := by
    show ((sortB (fun p q : Nat × NameData => decide (f q.2 ≤ f p.2))
      entities.enum).map Prod.snd)[pi] = entities[i]
    rw [List.getElem_map, hgetp]
  have hgetj : ((sortB (fun p q : Nat × NameData => decide (f q.2 ≤ f p.2))
      entities.enum).map Prod.snd).get ⟨pj, hbj⟩ = entities[j] := by
    show ((sortB (fun p q : Nat × NameData => decide (f q.2 ≤ f p.2))
      entities.enum).map Prod.snd)[pj] = entities[j]
    rw [List.getElem_map, hgetq]
  rw [hgeti, hmapsort] at hri
  rw [hgetj, hmapsort] at hrj
  rw [hri, hrj, Option.getD_some, Option.getD_some]
  omega

theorem buildCache_eq_map (entities : List NameData) :
    buildCache entities =
      dictOfList (entities.map (fun nd => (nd.name, cacheEntry entities nd))) :=
  foldl_dictInsert_eq_dictOfList_map (fun nd : NameData => nd.name)
    (cacheEntry entities) entities

theorem pyGet_buildCache (entities : List NameData)
    (h : (entities.map (fun nd => nd.name)).Nodup)
    (e : NameData) (he : e ∈ entities) :
    pyGet (buildCache entities) e.name = some (cacheEntry entities e) := by
  rw [buildCache_eq_map]
  rw [dictOfList_eq_self _ (by rw [List.map_map]; exact h)]
  exact pyGet_map_of_nodup (fun nd : NameData => nd.name)
    (cacheEntry entities) entities h e he

theorem pyGet_buildCache_isSome (entities : List NameData) (e : NameData)
    (he : e ∈ entities) :
    (pyGet (buildCache entities) e.name).isSome := by
  rw [pyGet_isSome_iff, buildCache_eq_map, mem_keys_dictOfList, List.map_map]
  exact List.mem_map_of_mem _ he

/-- C7: with the catalog's display names pairwise distinct (as `load`
guarantees), each of the three rank dimensions of the computed cache is a
dense 1-based rank: over the entities it is a permutation of 1..k, rank 1
belongs to a maximal count in that dimension, and ties get ranks in stable
(original) order. -/
theorem C7_ranks_dense_permutation (entities : List NameData)
    (h : (entities.map (fun nd => nd.name)).Nodup) :
    (List.Perm (entities.map (fun e =>
        ((pyGet (buildCache entities) e.name).getD
          { overall := 0, boys := 0, girls := 0 }).overall))
      (List.range' 1 entities.length) ∧
     (∀ e ∈ entities,
       ((pyGet (buildCache entities) e.name).getD
         { overall := 0, boys := 0, girls := 0 }).overall = 1 →
       ∀ e' ∈ entities, e'.total_count ≤ e.total_count) ∧
     entities.Pairwise (fun a b => a.total_count = b.total_count →
       ((pyGet (buildCache entities) a.name).getD
         { overall := 0, boys := 0, girls := 0 }).overall <
       ((pyGet (buildCache entities) b.name).getD
         { overall := 0, boys := 0, girls := 0 }).overall)) ∧
    (List.Perm (entities.map (fun e =>
        ((pyGet (buildCache entities) e.name).getD
          { overall := 0, boys := 0, girls := 0 }).boys))
      (List.range' 1 entities.length) ∧
     (∀ e ∈ entities,
       ((pyGet (buildCache entities) e.name).getD
         { overall := 0, boys := 0, girls := 0 }).boys = 1 →
       ∀ e' ∈ entities, e'.boys_total ≤ e.boys_total) ∧
     entities.Pairwise (fun a b => a.boys_total = b.boys_total →
       ((pyGet (buildCache entities) a.name).getD
         { overall := 0, boys := 0, girls := 0 }).boys <
       ((pyGet (buildCache entities) b.name).getD
         { overall := 0, boys := 0, girls := 0 }).boys)) ∧
    (List.Perm (entities.map (fun e =>
        ((pyGet (buildCache entities) e.name).getD
          { overall := 0, boys := 0, girls := 0 }).girls))
      (List.range' 1 entities.length) ∧
     (∀ e ∈ entities,
       ((pyGet (buildCache entities) e.name).getD
         { overall := 0, boys := 0, girls := 0 }).girls = 1 →
       ∀ e' ∈ entities, e'.girls_total ≤ e.girls_total) ∧
     entities.Pairwise (fun a b => a.girls_total = b.girls_total →
       ((pyGet (buildCache entities) a.name).getD
         { overall := 0, boys := 0, girls := 0 }).girls <
       ((pyGet (buildCache entities) b.name).getD
         { overall := 0, boys := 0, girls := 0 }).girls)) := by
  have hover : ∀ e ∈ entities,
      ((pyGet (buildCache entities) e.name).getD
        { overall := 0, boys := 0, girls := 0 }).overall =
      (pyGet (rankDict (sortB
        (fun a b => decide (b.total_count ≤ a.total_count)) entities))
        e.name).getD 0 := by
    intro e he
    rw [pyGet_buildCache entities h e he]
    rfl
  have hboys : ∀ e ∈ entities,
      ((pyGet (buildCache entities) e.name).getD
        { overall := 0, boys := 0, girls := 0 }).boys =
      (pyGet (rankDict (sortB
        (fun a b => decide (b.boys_total ≤ a.boys_total)) entities))
        e.name).getD 0 := by
    intro e he
    rw [pyGet_buildCache entities h e he]
    rfl
  have hgirls : ∀ e ∈ entities,
      ((pyGet (buildCache entities) e.name).getD
        { overall := 0, boys := 0, girls := 0 }).girls =
      (pyGet (rankDict (sortB
        (fun a b => decide (b.girls_total ≤ a.girls_total)) entities))
        e.name).getD 0 := by
    intro e he
    rw [pyGet_buildCache entities h e he]
    rfl
  refine ⟨⟨?_, ?_, ?_⟩, ⟨?_, ?_, ?_⟩, ⟨?_, ?_, ?_⟩⟩
  · rw [List.map_congr_left hover]
    exact dim_rank_perm entities (fun nd => nd.total_count) h
  · intro e he h1 e' he'
    rw [hover e he] at h1
    exact dim_rank_top entities (fun nd => nd.total_count) h e he h1 e' he'
  · exact (dim_rank_stable entities (fun nd => nd.total_count) h).imp_of_mem
      (fun ha hb hr heq => by
        rw [hover _ ha, hover _ hb]
        exact hr heq)
  · rw [List.map_congr_left hboys]
    exact dim_rank_perm entities (fun nd => nd.boys_total) h
  · intro e he h1 e' he'
    rw [hboys e he] at h1
    exact dim_rank_top entities (fun nd => nd.boys_total) h e he h1 e' he'
  · exact (dim_rank_stable entities (fun nd => nd.boys_total) h).imp_of_mem
      (fun ha hb hr heq => by
        rw [hboys _ ha, hboys _ hb]
        exact hr heq)
  · rw [List.map_congr_left hgirls]
    exact dim_rank_perm entities (fun nd => nd.girls_total) h
  · intro e he h1 e' he'
    rw [hgirls e he] at h1
    exact dim_rank_top entities (fun nd => nd.girls_total) h e he h1 e' he'
  · exact (dim_rank_stable entities (fun nd => nd.girls_total) h).imp_of_mem
      (fun ha hb hr heq => by
        rw [hgirls _ ha, hgirls _ hb]
        exact hr heq)

/-- Witness for C7 on a concrete two-entity catalog with distinct names. -/
theorem C7_ranks_dense_permutation_witness :
    List.Perm (([{ name := "liam", boys_total := 3, girls_total := 0 },
      { name := "emma", boys_total := 0, girls_total := 2 }] : List NameData).map (fun e =>
        ((pyGet (buildCache ([{ name := "liam", boys_total := 3, girls_total := 0 },
          { name := "emma", boys_total := 0, girls_total := 2 }] : List NameData)) e.name).getD
          { overall := 0, boys := 0, girls := 0 }).overall))
      (List.range' 1 ([{ name := "liam", boys_total := 3, girls_total := 0 },
        { name := "emma", boys_total := 0, girls_total := 2 }] : List NameData).length) :=
  (C7_ranks_dense_permutation
    [{ name := "liam", boys_total := 3, girls_total := 0 },
     { name := "emma", boys_total := 0, girls_total := 2 }] (by decide)).1.1

theorem get_ranked_names_eq (ds : Dataset)
    (hc : ds.ranksCache = none ∨ ds.ranksCache = some (buildCache ds.values))
    (t : Int) : get_ranked_names ds t =
      mapOrFail (fun nd => (pyGet (buildCache ds.values) nd.name).map
        (fun r => (nd, r)))
        (if t > 0
         then (sortB (fun a b => decide (b.total_count ≤ a.total_count))
           ds.values).take t.toNat
         else sortB (fun a b => decide (b.total_count ≤ a.total_count))
           ds.values) := by
  rcases hc with hc | hc <;> simp only [get_ranked_names, hc]

theorem pyGet_buildCache_map_some (ds : Dataset) (nd : NameData)
    (hmem : nd ∈ ds.values) :
    (pyGet (buildCache ds.values) nd.name).map (fun r => (nd, r)) =
      some (nd, (pyGet (buildCache ds.values) nd.name).getD
        { overall := 0, boys := 0, girls := 0 }) := by
  have hs := pyGet_buildCache_isSome ds.values nd hmem
  cases hx : pyGet (buildCache ds.values) nd.name with
  | none => rw [hx] at hs; cases hs
  | some r => rfl

/-- C8: on a catalog whose rank cache is absent or freshly computed,
`get_ranked_names` returns all entities sorted by `total_count` descending,
each paired with its cached `Ranks`; every positive `top_n` truncates that
sequence to its first `top_n` entries, and every `top_n` that is 0 or
negative means no limit; consequently, whenever the catalog has at least 5
entities, `get_ranked_names 5` returns exactly 5 entries equal to the first 5
of `get_ranked_names 0`. -/
theorem C8_get_ranked_truncation (ds : Dataset)
    (hc : ds.ranksCache = none ∨ ds.ranksCache = some (buildCache ds.values)) :
    ∃ l : List (NameData × Ranks),
      (∀ t : Int, t ≤ 0 → get_ranked_names ds t = some l) ∧
      (∀ t : Int, 0 < t → get_ranked_names ds t = some (l.take t.toNat)) ∧
      l.map (·.1) =
        sortB (fun a b => decide (b.total_count ≤ a.total_count)) ds.values ∧
      (l.map (·.1)).Pairwise (fun a b => b.total_count ≤ a.total_count) ∧
      (∀ p ∈ l, pyGet (buildCache ds.values) p.1.name = some p.2) ∧
      (5 ≤ ds.names.length →
        get_ranked_names ds 0 = some l ∧
        get_ranked_names ds 5 = some (l.take 5) ∧
        (l.take 5).length = 5) := by
  have hsome : ∀ nd ∈ sortB (fun a b => decide (b.total_count ≤ a.total_count))
      ds.values,
      (pyGet (buildCache ds.values) nd.name).map (fun r => (nd, r)) =
        some ((fun nd => (nd, (pyGet (buildCache ds.values) nd.name).getD
          { overall := 0, boys := 0, girls := 0 })) nd) :=
    fun nd hnd => pyGet_buildCache_map_some ds nd ((sortB_perm _ _).mem_iff.mp hnd)
  have hnolimit : ∀ t : Int, t ≤ 0 → get_ranked_names ds t =
      some ((sortB (fun a b => decide (b.total_count ≤ a.total_count))
        ds.values).map (fun nd => (nd,
          (pyGet (buildCache ds.values) nd.name).getD
            { overall := 0, boys := 0, girls := 0 }))) := by
    intro t ht
    rw [get_ranked_names_eq ds hc t, if_neg (by omega)]
    exact mapOrFail_eq_some _ _ _ hsome
  have hcut : ∀ t : Int, 0 < t → get_ranked_names ds t =
      some (((sortB (fun a b => decide (b.total_count ≤ a.total_count))
        ds.values).map (fun nd => (nd,
          (pyGet (buildCache ds.values) nd.name).getD
            { overall := 0, boys := 0, girls := 0 }))).take t.toNat) := by
    intro t ht
    rw [get_ranked_names_eq ds hc t, if_pos (by omega),
      mapOrFail_eq_some _ _ _ (fun x hx => hsome x (List.mem_of_mem_take hx)),
      List.map_take]
  refine ⟨(sortB (fun a b => decide (b.total_count ≤ a.total_count))
      ds.values).map (fun nd => (nd,
        (pyGet (buildCache ds.values) nd.name).getD
          { overall := 0, boys := 0, girls := 0 })), hnolimit, hcut,
    map_fst_map_pair _ _, ?_, ?_, ?_⟩
  · rw [map_fst_map_pair]
    exact (pairwise_sortB _ (keyGe_total (fun nd : NameData => nd.total_count))
      (keyGe_trans (fun nd : NameData => nd.total_count)) ds.values).imp
      (fun hab => by simpa using hab)
  · intro p hp
    rcases List.mem_map.mp hp with ⟨nd, hnd, rfl⟩
    have hmem : nd ∈ ds.values := (sortB_perm _ _).mem_iff.mp hnd
    have hs := pyGet_buildCache_isSome ds.values nd hmem
    cases hx : pyGet (buildCache ds.values) nd.name with
    | none => rw [hx] at hs; cases hs
    | some r => rfl
  · intro h5
    refine ⟨hnolimit 0 (by omega), ?_, ?_⟩
    · rw [hcut 5 (by omega)]
      rfl
    · rw [List.length_take, List.length_map, (sortB_perm _ _).length_eq,
        Dataset.values, List.length_map]
      omega

/-- Witness for C8 on a concrete five-entity catalog with an empty cache:
no-limit, a positive limit of 2, and the top-5 consequence. -/
theorem C8_get_ranked_truncation_witness :
    ∃ l : List (NameData × Ranks),
      get_ranked_names
        { names := [("a", { name := "a", boys_total := 1, girls_total := 0 }),
            ("b", { name := "b", boys_total := 2, girls_total := 0 }),
            ("c", { name := "c", boys_total := 3, girls_total := 0 }),
            ("d", { name := "d", boys_total := 4, girls_total := 0 }),
            ("e", { name := "e", boys_total := 5, girls_total := 0 })] } 0 = some l ∧
      get_ranked_names
        { names := [("a", { name := "a", boys_total := 1, girls_total := 0 }),
            ("b", { name := "b", boys_total := 2, girls_total := 0 }),
            ("c", { name := "c", boys_total := 3, girls_total := 0 }),
            ("d", { name := "d", boys_total := 4, girls_total := 0 }),
            ("e", { name := "e", boys_total := 5, girls_total := 0 })] } 2 =
        some (l.take 2) ∧
      get_ranked_names
        { names := [("a", { name := "a", boys_total := 1, girls_total := 0 }),
            ("b", { name := "b", boys_total := 2, girls_total := 0 }),
            ("c", { name := "c", boys_total := 3, girls_total := 0 }),
            ("d", { name := "d", boys_total := 4, girls_total := 0 }),
            ("e", { name := "e", boys_total := 5, girls_total := 0 })] } 5 =
        some (l.take 5) ∧
      (l.take 5).length = 5 := by
  rcases C8_get_ranked_truncation
    { names := [("a", { name := "a", boys_total := 1, girls_total := 0 }),
        ("b", { name := "b", boys_total := 2, girls_total := 0 }),
        ("c", { name := "c", boys_total := 3, girls_total := 0 }),
        ("d", { name := "d", boys_total := 4, girls_total := 0 }),
        ("e", { name := "e", boys_total := 5, girls_total := 0 })] }
    (Or.inl rfl) with ⟨l, hle, hgt, _, _, _, h5⟩
  rcases h5 (by decide) with ⟨h0, h5a, h5b⟩
  exact ⟨l, h0, hgt 2 (by omega), h5a, h5b⟩

theorem get_ranked_names_isSome (ds : Dataset)
    (hc : ds.ranksCache = none ∨ ds.ranksCache = some (buildCache ds.values))
    (t : Int) : (get_ranked_names ds t).isSome := by
  rw [get_ranked_names_eq ds hc t]
  by_cases ht : t > 0
  · rw [if_pos ht,
      mapOrFail_eq_some _ (fun nd => (nd,
          (pyGet (buildCache ds.values) nd.name).getD
            { overall := 0, boys := 0, girls := 0 })) _
        (fun x hx => pyGet_buildCache_map_some ds x
          ((sortB_perm _ _).mem_iff.mp (List.mem_of_mem_take hx)))]
    rfl
  · rw [if_neg ht,
      mapOrFail_eq_some _ (fun nd => (nd,
          (pyGet (buildCache ds.values) nd.name).getD
            { overall := 0, boys := 0, girls := 0 })) _
        (fun x hx => pyGet_buildCache_map_some ds x
          ((sortB_perm _ _).mem_iff.mp hx))]
    rfl

/-- C10: in a catalog built by `load`, every storage key is the lower-cased
display name of its entity and the keys are pairwise distinct, so distinct
entities have distinct display names; the computed rank cache has exactly the
display names as its keys, its lookup succeeds for every entity, and
`get_ranked_names` (which recomputes an absent cache, and after
`_compute_ranks` reads the fresh one) never hits the missing-key branch. -/
theorem C10_rank_cache_lookup_safe (boysRows girlsRows : List (String × Rat))
    (top_n : Int) :
    (∀ p ∈ (load boysRows girlsRows).names, p.1 = strLower p.2.name) ∧
    ((load boysRows girlsRows).names.map (·.1)).Nodup ∧
    (((load boysRows girlsRows).values).map (fun nd => nd.name)).Nodup ∧
    ((buildCache (load boysRows girlsRows).values).map (·.1) =
      ((load boysRows girlsRows).values).map (fun nd => nd.name)) ∧
    (∀ e ∈ (load boysRows girlsRows).values,
      (pyGet (buildCache (load boysRows girlsRows).values) e.name).isSome) ∧
    (get_ranked_names (load boysRows girlsRows) top_n).isSome ∧
    (get_ranked_names (compute_ranks (load boysRows girlsRows)) top_n).isSome := by
  have hfold : (load boysRows girlsRows).names =
      (sortedUnionKeys (dictOfList boysRows) (dictOfList girlsRows)).foldl
        (fun d n => dictInsert (strLower n) (loadEntity boysRows girlsRows n) d)
        [] := rfl
  have h1 : ∀ p ∈ (load boysRows girlsRows).names, p.1 = strLower p.2.name := by
    intro p hp
    rw [hfold] at hp
    rcases mem_foldl_dictInsert_map strLower (loadEntity boysRows girlsRows)
      _ [] p hp with h | ⟨n, _, rfl⟩
    · cases h
    · rfl
  have h2 : ((load boysRows girlsRows).names.map (·.1)).Nodup := by
    rw [hfold]
    exact nodup_keys_foldl_dictInsert strLower (loadEntity boysRows girlsRows)
      _ [] (by simp)
  have h3 : (((load boysRows girlsRows).values).map (fun nd => nd.name)).Nodup := by
    have h2' := h2
    rw [List.map_congr_left h1] at h2'
    have hml : (((load boysRows girlsRows).names.map
        (fun p => p.2.name)).map strLower).Nodup := by
      rw [List.map_map]
      exact h2'
    have := hml.of_map strLower
    rw [Dataset.values, List.map_map]
    exact this
  have h4 : (buildCache (load boysRows girlsRows).values).map (·.1) =
      ((load boysRows girlsRows).values).map (fun nd => nd.name) := by
    rw [buildCache_eq_map, dictOfList_eq_self _ (by rw [List.map_map]; exact h3),
      List.map_map]
    rfl
  have h5 : ∀ e ∈ (load boysRows girlsRows).values,
      (pyGet (buildCache (load boysRows girlsRows).values) e.name).isSome :=
    fun e he => pyGet_buildCache_isSome _ e he
  refine ⟨h1, h2, h3, h4, h5, ?_, ?_⟩
  · exact get_ranked_names_isSome _ (Or.inl rfl) top_n
  · exact get_ranked_names_isSome (compute_ranks (load boysRows girlsRows))
      (Or.inr rfl) top_n

end Names
